import Mathlib

/-!
# goircd: process start-up (`Run`), accept loop (`listenerLoop`), health endpoint

A shallow embedding of `goircd.go`.

* Go strings are byte sequences (`Str`).
* `Run` is a straight-line sequence of start-up steps, each of which may end the
  process through `log.Fatal*`.  It is embedded as a function from the flags and
  the answers of the operating system (`Env`) to the ordered list of effects it
  performs (`Action`), the rooms it restored and the way it ended.
* `listenerLoop` is an endless `for`; it is embedded as the state reached after a
  finite sequence of results of `sock.Accept()`.
-/

set_option linter.constructorNameAsVariable false
set_option linter.unusedVariables false

namespace Goircd

/-! ## Strings and the library functions used on them -/

/-- Go `string`: an immutable sequence of bytes. -/
abbrev Str := List UInt8

/-- The bytes of an ASCII literal. -/
def ascii (s : String) : Str := s.data.map (fun c => UInt8.ofNat c.toNat)

/-- The byte of the separator `"\n"`. -/
def NL : UInt8 := 10

/-- The byte `'/'`. -/
def SLASH : UInt8 := 47

/-- `strings.Index(s, "\n")`: position of the first newline, `none` for `-1`. -/
def Index : Str → Option Nat
  | [] => none
  | c :: cs => if c = NL then some 0 else (Index cs).map (· + 1)

/-- `strings.Count(s, "\n")`. -/
def Count : Str → Nat
  | [] => 0
  | c :: cs => if c = NL then Count cs + 1 else Count cs

/-- The loop of `strings.genSplit` for the separator `"\n"`: at most `n` cuts at
the first newline of what is left, then the remainder as the last element. -/
def genSplit : Nat → Str → List Str
  | 0, s => [s]
  | n + 1, s =>
    match Index s with
    | none => [s]
    | some m => s.take m :: genSplit n (s.drop (m + 1))

/-- `strings.Split(s, "\n")`. -/
def Split (s : Str) : List Str := genSplit (Count s) s

/-- `path.IsAbs`: `len(path) > 0 && path[0] == '/'`. -/
def IsAbs : Str → Bool
  | [] => false
  | c :: _ => c == SLASH

/-- `path.Base`: the last element of the path, after trailing slashes are
stripped; `"."` for the empty path and `"/"` for a path of slashes only. -/
def Base (p : Str) : Str :=
  if p = [] then ascii "."
  else
    let stripped := (p.reverse.dropWhile (· == SLASH)).reverse
    let last := (stripped.reverse.takeWhile (· != SLASH)).reverse
    if last = [] then ascii "/" else last

/-! ## Flags -/

/-- The constant `PROXY_TIMEOUT`. -/
def PROXY_TIMEOUT : Nat := 5

/-- The command-line flags (the package-level `flag.*` variables), with their
defaults. `proxyTimeout` is a Go `uint`. -/
structure Flags where
  hostname : Str := ascii "localhost"
  bind : Str := ascii ":6667"
  motd : Str := []
  logdir : Str := []
  statedir : Str := []
  passwords : Str := []
  tlsBind : Str := []
  tlsPEM : Str := []
  tlsKEY : Str := []
  tlsonly : Bool := false
  proxyTimeout : Nat := PROXY_TIMEOUT
  metrics : Bool := false
  verbose : Bool := false
  healtcheck : Bool := false
  healtbind : Str := ascii "[::]:8086"
  deriving DecidableEq

/-! ## Durations -/

/-- Reduction of an integer to the range of Go `int64` (two's complement). -/
def int64 (x : Int) : Int := (x + 2 ^ 63) % 2 ^ 64 - 2 ^ 63

/-- Reduction of a natural number to the range of Go `uint` on a 64-bit
platform. -/
def uint (n : Nat) : Nat := n % 2 ^ 64

/-- The constant `time.Second`, in nanoseconds. -/
def Second : Int := 1000000000

/-- The local `proxyTimeout` of `Run`:
`time.Duration(uint(*proxyTimeout)) * time.Second`, a `time.Duration` (an
`int64` count of nanoseconds). -/
def proxyTimeoutDuration (n : Nat) : Int :=
  int64 (int64 (uint n) * Second)

/-! ## Rooms -/

/-- Modelled from the spec: the `Room` type is declared outside `goircd.go`. The
spec gives a room a name, an optional topic and an optional key; `Run` reads
`room.name` and assigns `room.topic` and `room.key`. -/
structure Room where
  name : Str
  topic : Option Str
  key : Option Str
  deriving DecidableEq

/-! ## Effects of start-up -/

/-- The channels named in `goircd.go`: the local `events` of `Run` and the
package-level `logSink` and `stateSink`. -/
inductive Chan
  | events
  | logSink
  | stateSink
  deriving DecidableEq

/-- The goroutines `Run` starts with a `go` statement. -/
inductive Task
  /-- The literal `go func() { for _ = range sink {} }()`. -/
  | dummy (sink : Chan)
  /-- The call `go Logger(dir, sink)`. -/
  | Logger (dir : Str) (sink : Chan)
  /-- The call `go StateKeeper(dir, sink)`. -/
  | StateKeeper (dir : Str) (sink : Chan)
  /-- The call `go listenerLoop(l, events)`, where `l` listens on `addr`, wraps
  the socket in a `proxyproto.Listener` with the given `ProxyHeaderTimeout`
  (nanoseconds) and, when `tls` is set, in `tls.NewListener`. -/
  | listenerLoop (tls : Bool) (addr : Str) (ProxyHeaderTimeout : Int) (events : Chan)
  /-- The call `go prom_export()`. -/
  | prom_export
  /-- The call `go health_endpoint()`. -/
  | health_endpoint
  deriving DecidableEq

/-- The lines `Run` writes with `log.Println` / `log.Printf`. -/
inductive Msg
  | loggerStarted (dir : Str)
  | starting
  | stateCorrupted (room : Str) (contents : List Str)
  | loadedState (room : Str)
  | statekeeperStarted (dir : Str)
  | rawListening (addr : Str)
  | tlsListening (addr : Str)
  deriving DecidableEq

/-- The calls of `log.Fatalln` / `log.Fatalf` in `Run`, one constructor per call
site. Each of them ends the process. -/
inductive FatalError
  | logdirNotAbsolute
  | statedirNotAbsolute
  | cannotReadStatedir
  | cannotReadState (state : Str)
  | cannotListen (addr : Str)
  | cannotLoadCertificate (pem key : Str)
  | cannotListenTLS (addr : Str)
  deriving DecidableEq

/-- The effects of `Run`, in the order of the statements that perform them. -/
inductive Action
  | go (t : Task)
  | Println (m : Msg)
  | Glob (statedir : Str)
  | ReadFile (state : Str)
  | RoomRegister (name : Str)
  | setTopic (room : Str) (topic : Str)
  | setKey (room : Str) (key : Str)
  | Listen (addr : Str)
  | LoadX509KeyPair (pem key : Str)
  | Fatal (e : FatalError)
  | Processor (events : Chan)
  deriving DecidableEq

/-- What `Run` is told by its surroundings. For `ReadFile`, `Listen`,
`LoadX509KeyPair` and `ListenTLS`, `none` / `false` stand for a non-nil `err`. -/
structure Env where
  /-- Whether `path.Join(statedir, "#*")` is a malformed pattern, for which
  `filepath.Glob` returns `ErrBadPattern`. -/
  BadPattern : Str → Bool
  /-- The paths of the files of the directory `statedir` whose name matches
  `"#*"`; `none` when the directory cannot be listed (it is missing, is not a
  directory or may not be read). -/
  ReadDir : Str → Option (List Str)
  /-- The result of `ioutil.ReadFile(state)`. -/
  ReadFile : Str → Option Str
  /-- The room returned by `RoomRegister(name)` (defined outside `goircd.go`). -/
  RoomRegister : Str → Room
  /-- Whether `net.Listen("tcp", *bind)` succeeds. -/
  Listen : Str → Bool
  /-- Whether `tls.LoadX509KeyPair(*tlsPEM, *tlsKEY)` succeeds. -/
  LoadX509KeyPair : Str → Str → Bool
  /-- Whether `net.Listen("tcp", *tlsBind)` succeeds. -/
  ListenTLS : Str → Bool

/-- The result of `filepath.Glob(path.Join(statedir, "#*"))`, `none` for a
non-nil `err`. As the Go library documents it, `Glob` ignores file system errors
such as I/O errors reading directories, and the only error it returns is
`ErrBadPattern`, for a malformed pattern: a directory that cannot be listed
gives no match and no error. -/
def Env.Glob (env : Env) (statedir : Str) : Option (List Str) :=
  if env.BadPattern statedir then none
  else
    match env.ReadDir statedir with
    | none => some []
    | some states => some states

/-- A stretch of `Run`: the effects performed, the rooms restored, and the fatal
error that ended the process, if any. -/
structure Result where
  trace : List Action
  rooms : List Room
  exit : Option FatalError
  deriving DecidableEq

/-- Sequencing of two stretches: the second one runs only when the first did not
end the process. -/
def Result.andThen (p q : Result) : Result :=
  match p.exit with
  | some _ => p
  | none => ⟨p.trace ++ q.trace, p.rooms ++ q.rooms, q.exit⟩

/-- A call of `log.Fatalln` / `log.Fatalf`. -/
def fatal (e : FatalError) : Result := ⟨[.Fatal e], [], some e⟩

/-- Statements that cannot fail and restore no room. -/
def steps (t : List Action) : Result := ⟨t, [], none⟩

/-! ## `Run` -/

/-- Lines 109-121 of `Run`: the logger or its dummy. -/
def startLogger (f : Flags) : Result :=
  if f.logdir = [] then
    steps [.go (.dummy .logSink)]
  else if !IsAbs f.logdir then
    fatal .logdirNotAbsolute
  else
    steps [.go (.Logger f.logdir .logSink), .Println (.loggerStarted f.logdir)]

/-- Lines 139-151 of `Run`: the body of the loop over the state files. -/
def loadState (env : Env) (state : Str) : Result :=
  match env.ReadFile state with
  | none => (steps [.ReadFile state]).andThen (fatal (.cannotReadState state))
  | some buf =>
    let room := env.RoomRegister (Base state)
    let contents := Split buf
    if h : contents.length < 2 then
      ⟨[.ReadFile state, .RoomRegister (Base state),
        .Println (.stateCorrupted room.name contents)], [room], none⟩
    else
      ⟨[.ReadFile state, .RoomRegister (Base state),
        .setTopic (Base state) contents[0],
        .setKey (Base state) contents[1],
        .Println (.loadedState room.name)],
       [{ room with topic := some contents[0], key := some contents[1] }], none⟩

/-- Lines 138-152 of `Run`: the loop over the state files. -/
def loadStates (env : Env) : List Str → Result
  | [] => steps []
  | state :: rest => (loadState env state).andThen (loadStates env rest)

/-- Lines 124-155 of `Run`: the state keeper or its dummy. -/
def startStateKeeper (env : Env) (f : Flags) : Result :=
  if f.statedir = [] then
    steps [.go (.dummy .stateSink)]
  else if !IsAbs f.statedir then
    fatal .statedirNotAbsolute
  else
    match env.Glob f.statedir with
    | none => (steps [.Glob f.statedir]).andThen (fatal .cannotReadStatedir)
    | some states =>
      ((steps [.Glob f.statedir]).andThen (loadStates env states)).andThen
        (steps [.go (.StateKeeper f.statedir .stateSink),
                .Println (.statekeeperStarted f.statedir)])

/-- Lines 159-169 of `Run`: the plain listener. -/
def startPlain (env : Env) (f : Flags) : Result :=
  if f.bind ≠ [] ∧ f.tlsonly = false then
    if env.Listen f.bind then
      steps [.Listen f.bind, .Println (.rawListening f.bind),
             .go (.listenerLoop false f.bind (proxyTimeoutDuration f.proxyTimeout) .events)]
    else
      (steps [.Listen f.bind]).andThen (fatal (.cannotListen f.bind))
  else
    steps []

/-- Lines 172-174 of `Run`: the value of `tlsKEY` after
`if *tlsKEY == "" { tlsKEY = tlsPEM }`. -/
def tlsKeyPath (f : Flags) : Str :=
  if f.tlsKEY = [] then f.tlsPEM else f.tlsKEY

/-- Lines 171-196 of `Run`: the TLS listener. -/
def startTLS (env : Env) (f : Flags) : Result :=
  if f.tlsBind ≠ [] then
    if env.LoadX509KeyPair f.tlsPEM (tlsKeyPath f) then
      if env.ListenTLS f.tlsBind then
        steps [.LoadX509KeyPair f.tlsPEM (tlsKeyPath f), .Listen f.tlsBind,
               .Println (.tlsListening f.tlsBind),
               .go (.listenerLoop true f.tlsBind (proxyTimeoutDuration f.proxyTimeout) .events)]
      else
        (steps [.LoadX509KeyPair f.tlsPEM (tlsKeyPath f), .Listen f.tlsBind]).andThen
          (fatal (.cannotListenTLS f.tlsBind))
    else
      (steps [.LoadX509KeyPair f.tlsPEM (tlsKeyPath f)]).andThen
        (fatal (.cannotLoadCertificate f.tlsPEM (tlsKeyPath f)))
  else
    steps []

/-- Lines 198-206 of `Run`: the optional endpoints and the call of the
coordinator `Processor(events, ...)`, from which `Run` does not come back. -/
def startServing (f : Flags) : Result :=
  steps ((if f.metrics then [.go .prom_export] else []) ++
         (if f.healtcheck then [.go .health_endpoint] else []) ++
         [.Processor .events])

/-- The function `Run`. -/
def Run (env : Env) (f : Flags) : Result :=
  ((((startLogger f).andThen (steps [.Println .starting])).andThen
    (startStateKeeper env f)).andThen (startPlain env f)).andThen
    ((startTLS env f).andThen (startServing f))

/-! ## `health_endpoint` -/

/-- The effects of `health_endpoint`. -/
inductive HealthAction
  | AddLivenessCheck (name : Str) (goroutineThreshold : Nat)
  | Printf (addr : Str)
  | ListenAndServe (addr : Str)
  deriving DecidableEq

/-- The function `health_endpoint`. It is a function of the flags because a Go
function can read the package-level flag variables. -/
def health_endpoint (_f : Flags) : List HealthAction :=
  let health_bind := ascii "0.0.0.0:8086"
  [.AddLivenessCheck (ascii "goroutine-threshold") 100,
   .Printf health_bind,
   .ListenAndServe health_bind]

/-- The address `health_endpoint` hands to `http.ListenAndServe`. -/
def healthListenAddr (f : Flags) : List Str :=
  (health_endpoint f).filterMap fun a =>
    match a with
    | .ListenAndServe addr => some addr
    | _ => none

/-! ## `listenerLoop` -/

/-- The state `listenerLoop` acts on. `Client` is the type of the sessions made
by `NewClient`. -/
structure LoopState (Client : Type) where
  /-- Number of calls of `sock.Accept()` made so far. -/
  accepts : Nat
  /-- The sessions made by `NewClient`, oldest first. -/
  clients : List Client
  /-- The counter `clients_tls_total`. -/
  clients_tls_total : Nat
  /-- The tasks started by `go client.Processor(events)`, oldest first. -/
  started : List (Client × Chan)
  /-- Number of lines written by `log.Println("Error during accepting
  connection", err)`. -/
  logged : Nat

/-- One round of the `for` of `listenerLoop`, for the result `r` of
`sock.Accept()` (`none` stands for a non-nil `err`). Neither branch leaves the
loop. -/
def listenerLoopBody {Conn Client : Type} (NewClient : Conn → Client) (events : Chan)
    (st : LoopState Client) (r : Option Conn) : LoopState Client :=
  match r with
  | none => { st with accepts := st.accepts + 1, logged := st.logged + 1 }
  | some conn =>
    let client := NewClient conn
    { st with accepts := st.accepts + 1,
              clients := st.clients ++ [client],
              clients_tls_total := st.clients_tls_total + 1,
              started := st.started ++ [(client, events)] }

/-- The function `listenerLoop`, run for as many rounds as there are results of
`sock.Accept()`. -/
def listenerLoop {Conn Client : Type} (NewClient : Conn → Client) (events : Chan)
    (results : List (Option Conn)) (st : LoopState Client) : LoopState Client :=
  results.foldl (listenerLoopBody NewClient events) st

/-! ## The dummy consumers -/

/-- The body of the dummy goroutines, `for _ = range sink {}`, on the items that
pass through the channel before it is closed: the number of items received and
the effects performed for them. -/
def dummy {Item : Type} : List Item → Nat × List Action
  | [] => (0, [])
  | _ :: rest => ((dummy rest).1 + 1, (dummy rest).2)

/-! ## Classification of effects -/

/-- Registration of a room or assignment of its topic or key. -/
def Action.isRoom : Action → Bool
  | .RoomRegister _ => true
  | .setTopic _ _ => true
  | .setKey _ _ => true
  | _ => false

/-- Start of an accept loop. -/
def Action.isAcceptLoop : Action → Bool
  | .go (.listenerLoop _ _ _ _) => true
  | _ => false

/-- Start of the accept loop of the plain listener. -/
def Action.isPlainLoop : Action → Bool
  | .go (.listenerLoop false _ _ _) => true
  | _ => false

/-- Start of the accept loop of the TLS listener. -/
def Action.isTLSLoop : Action → Bool
  | .go (.listenerLoop true _ _ _) => true
  | _ => false

/-- Opening of a listening socket or start of an accept loop. -/
def Action.isListener : Action → Bool
  | .Listen _ => true
  | .go (.listenerLoop _ _ _ _) => true
  | _ => false

/-- Start of the state keeper. -/
def Action.isStateKeeper : Action → Bool
  | .go (.StateKeeper _ _) => true
  | _ => false

/-- Start of the file logger. -/
def Action.isLogger : Action → Bool
  | .go (.Logger _ _) => true
  | _ => false

/-- The call of the coordinator. -/
def Action.isProcessor : Action → Bool
  | .Processor _ => true
  | _ => false

/-- Start of the health endpoint. -/
def Action.isHealth : Action → Bool
  | .go .health_endpoint => true
  | _ => false

/-- The fatal error of the plain listener: its address cannot be bound. -/
def FatalError.isPlainListen : FatalError → Bool
  | .cannotListen _ => true
  | _ => false

/-- The fatal errors of the TLS listener: the certificate and key cannot be
loaded, or its address cannot be bound. -/
def FatalError.isTLS : FatalError → Bool
  | .cannotLoadCertificate _ _ => true
  | .cannotListenTLS _ => true
  | _ => false

/-- Certificate loading, opening of a listening socket, start of an accept loop
or call of the coordinator. -/
def Action.isServing : Action → Bool
  | .Listen _ => true
  | .LoadX509KeyPair _ _ => true
  | .go (.listenerLoop _ _ _ _) => true
  | .Processor _ => true
  | _ => false

/-- The part of a trace that concerns serving. -/
def serving (t : List Action) : List Action :=
  t.filter Action.isServing

/-- The `ProxyHeaderTimeout` of the listener, for the start of an accept loop. -/
def Action.proxyHeaderTimeout : Action → Option Int
  | .go (.listenerLoop _ _ timeout _) => some timeout
  | _ => none

/-! ## Example surroundings -/

/-- A state directory with two state files, `#go` holding a topic and a key and
`#void` holding nothing; sockets and certificates are as given. -/
def exampleEnv (listen cert listenTLS : Bool) : Env where
  BadPattern := fun _ => false
  ReadDir := fun _ => some [ascii "/var/lib/goircd/#go", ascii "/var/lib/goircd/#void"]
  ReadFile := fun state =>
    if state = ascii "/var/lib/goircd/#go" then some (ascii "hello\nsecret\n") else some []
  RoomRegister := fun name => ⟨name, none, none⟩
  Listen := fun _ => listen
  LoadX509KeyPair := fun _ _ => cert
  ListenTLS := fun _ => listenTLS

/-- Flags with a state directory, everything else at its default. -/
def stateFlags : Flags := { statedir := ascii "/var/lib/goircd" }

/-- The example surroundings with a state directory that cannot be listed. -/
def unreadableDirEnv : Env :=
  { exampleEnv true true true with ReadDir := fun _ => none }

/-- The example surroundings with a state directory whose name makes a
malformed pattern. -/
def badPatternEnv : Env :=
  { exampleEnv true true true with BadPattern := fun _ => true }

/-- The example surroundings with a second state file that cannot be read. -/
def noStateEnv : Env :=
  { exampleEnv true true true with
    ReadFile := fun state =>
      if state = ascii "/var/lib/goircd/#go" then some (ascii "hello\nsecret\n") else none }

/-- Flags with a TLS address and a certificate, everything else at its default
(the plain address is `":6667"`). -/
def tlsFlags : Flags := { tlsBind := ascii ":6697", tlsPEM := ascii "/etc/goircd/cert.pem" }

/-- The flags of `tlsFlags` with `-proxytimeout 9223372037`. -/
def longTimeoutFlags : Flags := { tlsFlags with proxyTimeout := 9223372037 }

/-- The default flags with `-healthcheck -healthbind 127.0.0.1:9000`. -/
def healthFlags : Flags := { healtcheck := true, healtbind := ascii "127.0.0.1:9000" }

/-! ## Lemmas on `strings.Split` -/

theorem Index_eq_none_of_not_mem (s : Str) (h : NL ∉ s) : Index s = none := by
  induction s with
  | nil => rfl
  | cons c cs ih =>
    simp only [List.mem_cons, not_or] at h
    have hc : c ≠ NL := fun e => h.1 e.symm
    simp [Index, hc, ih h.2]

theorem Count_eq_zero_of_not_mem (s : Str) (h : NL ∉ s) : Count s = 0 := by
  induction s with
  | nil => rfl
  | cons c cs ih =>
    simp only [List.mem_cons, not_or] at h
    have hc : c ≠ NL := fun e => h.1 e.symm
    simp [Count, hc, ih h.2]

theorem not_mem_of_Count_eq_zero (s : Str) (h : Count s = 0) : NL ∉ s := by
  induction s with
  | nil => simp
  | cons c cs ih =>
    by_cases hc : c = NL
    · simp [Count, hc] at h
    · simp only [Count, hc, if_false] at h
      simp only [List.mem_cons, not_or]
      exact ⟨fun e => hc e.symm, ih h⟩

theorem Index_append_NL (t r : Str) (h : NL ∉ t) :
    Index (t ++ NL :: r) = some t.length := by
  induction t with
  | nil => simp [Index]
  | cons c cs ih =>
    simp only [List.mem_cons, not_or] at h
    have hc : c ≠ NL := fun e => h.1 e.symm
    simp [Index, hc, ih h.2]

theorem Count_append_NL (t r : Str) (h : NL ∉ t) :
    Count (t ++ NL :: r) = Count r + 1 := by
  induction t with
  | nil => simp [Count]
  | cons c cs ih =>
    simp only [List.mem_cons, not_or] at h
    have hc : c ≠ NL := fun e => h.1 e.symm
    simp [Count, hc, ih h.2]

theorem Split_of_not_mem (s : Str) (h : NL ∉ s) : Split s = [s] := by
  simp [Split, Count_eq_zero_of_not_mem s h, genSplit]

theorem Split_append_NL (t r : Str) (h : NL ∉ t) :
    Split (t ++ NL :: r) = t :: Split r := by
  simp [Split, Count_append_NL t r h, genSplit, Index_append_NL t r h]

theorem exists_first_NL (s : Str) (h : NL ∈ s) :
    ∃ t r, s = t ++ NL :: r ∧ NL ∉ t := by
  induction s with
  | nil => simp at h
  | cons c cs ih =>
    by_cases hc : c = NL
    · exact ⟨[], cs, by simp [hc], by simp⟩
    · have h2 : NL ∈ cs := by
        rcases List.mem_cons.mp h with e | e
        · exact absurd e.symm hc
        · exact e
      obtain ⟨t, r, e, ht⟩ := ih h2
      refine ⟨c :: t, r, by simp [e], ?_⟩
      simp only [List.mem_cons, not_or]
      exact ⟨fun e => hc e.symm, ht⟩

theorem length_Split_aux (n : Nat) : ∀ s : Str, s.length ≤ n → (Split s).length = Count s + 1 := by
  induction n with
  | zero =>
    intro s hs
    have : s = [] := List.length_eq_zero.mp (Nat.le_zero.mp hs)
    subst this
    rfl
  | succ n ih =>
    intro s hs
    by_cases h : NL ∈ s
    · obtain ⟨t, r, rfl, ht⟩ := exists_first_NL s h
      have hr : r.length ≤ n := by
        simp only [List.length_append, List.length_cons] at hs
        omega
      rw [Split_append_NL t r ht, Count_append_NL t r ht, List.length_cons, ih r hr]
    · simp [Split_of_not_mem s h, Count_eq_zero_of_not_mem s h]

theorem length_Split (s : Str) : (Split s).length = Count s + 1 :=
  length_Split_aux s.length s (Nat.le_refl _)

theorem length_Split_lt_two_iff (s : Str) : (Split s).length < 2 ↔ NL ∉ s := by
  rw [length_Split]
  constructor
  · intro h
    exact not_mem_of_Count_eq_zero s (by omega)
  · intro h
    rw [Count_eq_zero_of_not_mem s h]
    decide

theorem Split_record (topic key rest : Str) (ht : NL ∉ topic) (hk : NL ∉ key)
    (hr : rest = [] ∨ ∃ more, rest = NL :: more) :
    ∃ others, Split (topic ++ NL :: (key ++ rest)) = topic :: key :: others := by
  rw [Split_append_NL topic _ ht]
  rcases hr with rfl | ⟨more, rfl⟩
  · exact ⟨[], by simp [Split_of_not_mem key hk]⟩
  · exact ⟨Split more, by rw [Split_append_NL key more hk]⟩

/-! ## Lemmas on sequencing -/

theorem andThen_trace (p q : Result) :
    (p.andThen q).trace = p.trace ++ (if p.exit = none then q.trace else []) := by
  cases h : p.exit <;> simp [Result.andThen, h]

theorem andThen_rooms (p q : Result) :
    (p.andThen q).rooms = p.rooms ++ (if p.exit = none then q.rooms else []) := by
  cases h : p.exit <;> simp [Result.andThen, h]

theorem andThen_exit (p q : Result) :
    (p.andThen q).exit = if p.exit = none then q.exit else p.exit := by
  cases h : p.exit <;> simp [Result.andThen, h]

theorem andThen_exit_eq_none (p q : Result) :
    (p.andThen q).exit = none ↔ p.exit = none ∧ q.exit = none := by
  cases h : p.exit <;> simp [Result.andThen, h]

theorem loadState_of_record (env : Env) (state buf topic key : Str) (others : List Str)
    (hread : env.ReadFile state = some buf) (hs : Split buf = topic :: key :: others) :
    loadState env state =
      ⟨[.ReadFile state, .RoomRegister (Base state), .setTopic (Base state) topic,
        .setKey (Base state) key, .Println (.loadedState (env.RoomRegister (Base state)).name)],
       [{ env.RoomRegister (Base state) with topic := some topic, key := some key }], none⟩ := by
  simp [loadState, hread, hs]

theorem loadState_of_corrupted (env : Env) (state buf : Str)
    (hread : env.ReadFile state = some buf) (hs : NL ∉ buf) :
    loadState env state =
      ⟨[.ReadFile state, .RoomRegister (Base state),
        .Println (.stateCorrupted (env.RoomRegister (Base state)).name [buf])],
       [env.RoomRegister (Base state)], none⟩ := by
  simp [loadState, hread, Split_of_not_mem buf hs]

/-! ## The effects of each stretch of `Run` -/

theorem startLogger_actions (f : Flags) :
    ∀ a ∈ (startLogger f).trace,
      a.isRoom = false ∧ a.isListener = false ∧ a.isStateKeeper = false ∧
      a.isProcessor = false ∧ a.isHealth = false := by
  unfold startLogger
  split_ifs <;>
    simp [steps, fatal, Action.isRoom, Action.isListener, Action.isStateKeeper,
      Action.isProcessor, Action.isHealth]

theorem startLogger_rooms (f : Flags) : (startLogger f).rooms = [] := by
  unfold startLogger
  split_ifs <;> simp [steps, fatal]

theorem andThen_forall (P : Action → Prop) (p q : Result)
    (hp : ∀ a ∈ p.trace, P a) (hq : ∀ a ∈ q.trace, P a) :
    ∀ a ∈ (p.andThen q).trace, P a := by
  intro a h
  rw [andThen_trace, List.mem_append] at h
  rcases h with h | h
  · exact hp a h
  · split_ifs at h
    · exact hq a h
    · simp at h

theorem loadState_actions (env : Env) (state : Str) :
    ∀ a ∈ (loadState env state).trace,
      a.isListener = false ∧ a.isLogger = false ∧ a.isStateKeeper = false ∧
      a.isProcessor = false ∧ a.isHealth = false := by
  unfold loadState
  split
  · simp [steps, fatal, andThen_trace, Action.isListener, Action.isLogger,
      Action.isStateKeeper, Action.isProcessor, Action.isHealth]
  · dsimp only
    split_ifs <;>
      simp [Action.isListener, Action.isLogger, Action.isStateKeeper,
        Action.isProcessor, Action.isHealth]

theorem loadStates_actions (env : Env) (states : List Str) :
    ∀ a ∈ (loadStates env states).trace,
      a.isListener = false ∧ a.isLogger = false ∧ a.isStateKeeper = false ∧
      a.isProcessor = false ∧ a.isHealth = false := by
  induction states with
  | nil => simp [loadStates, steps]
  | cons state rest ih =>
    exact andThen_forall _ _ _ (loadState_actions env state) ih

theorem startStateKeeper_actions (env : Env) (f : Flags) :
    ∀ a ∈ (startStateKeeper env f).trace,
      a.isListener = false ∧ a.isLogger = false ∧ a.isProcessor = false ∧
      a.isHealth = false := by
  unfold startStateKeeper
  split_ifs
  · simp [steps, Action.isListener, Action.isLogger, Action.isProcessor, Action.isHealth]
  · simp [fatal, Action.isListener, Action.isLogger, Action.isProcessor, Action.isHealth]
  · split
    · simp [steps, fatal, andThen_trace, Action.isListener, Action.isLogger,
        Action.isProcessor, Action.isHealth]
    · refine andThen_forall _ _ _ (andThen_forall _ _ _ ?_ ?_) ?_
      · simp [steps, Action.isListener, Action.isLogger, Action.isProcessor, Action.isHealth]
      · intro a h
        have := loadStates_actions env _ a h
        exact ⟨this.1, this.2.1, this.2.2.2.1, this.2.2.2.2⟩
      · simp [steps, Action.isListener, Action.isLogger, Action.isProcessor, Action.isHealth]

theorem startPlain_actions (env : Env) (f : Flags) :
    ∀ a ∈ (startPlain env f).trace,
      a.isRoom = false ∧ a.isLogger = false ∧ a.isStateKeeper = false ∧
      a.isTLSLoop = false ∧ a.isProcessor = false ∧ a.isHealth = false := by
  unfold startPlain
  split_ifs <;>
    simp [steps, fatal, andThen_trace, Action.isRoom, Action.isLogger, Action.isStateKeeper,
      Action.isTLSLoop, Action.isProcessor, Action.isHealth]

theorem startPlain_rooms (env : Env) (f : Flags) : (startPlain env f).rooms = [] := by
  unfold startPlain
  split_ifs <;> simp [steps, fatal, andThen_rooms]

theorem startTLS_actions (env : Env) (f : Flags) :
    ∀ a ∈ (startTLS env f).trace,
      a.isRoom = false ∧ a.isLogger = false ∧ a.isStateKeeper = false ∧
      a.isPlainLoop = false ∧ a.isProcessor = false ∧ a.isHealth = false := by
  unfold startTLS
  split_ifs <;>
    simp [steps, fatal, andThen_trace, Action.isRoom, Action.isLogger, Action.isStateKeeper,
      Action.isPlainLoop, Action.isProcessor, Action.isHealth]

theorem startTLS_rooms (env : Env) (f : Flags) : (startTLS env f).rooms = [] := by
  unfold startTLS
  split_ifs <;> simp [steps, fatal, andThen_rooms]

theorem startServing_actions (f : Flags) :
    ∀ a ∈ (startServing f).trace,
      a.isRoom = false ∧ a.isLogger = false ∧ a.isStateKeeper = false ∧
      a.isListener = false := by
  unfold startServing
  split_ifs <;>
    simp [steps, Action.isRoom, Action.isLogger, Action.isStateKeeper, Action.isListener]

/-- The five ways `Run` can go: it ends in one of the first four stretches, or
it reaches the coordinator. -/
theorem Run_cases (env : Env) (f : Flags) :
    ((startLogger f).exit ≠ none ∧
      Run env f = startLogger f) ∨
    ((startLogger f).exit = none ∧ (startStateKeeper env f).exit ≠ none ∧
      (Run env f).trace = (startLogger f).trace ++ .Println .starting ::
        (startStateKeeper env f).trace ∧
      (Run env f).rooms = (startStateKeeper env f).rooms ∧
      (Run env f).exit = (startStateKeeper env f).exit) ∨
    ((startLogger f).exit = none ∧ (startStateKeeper env f).exit = none ∧
      (startPlain env f).exit ≠ none ∧
      (Run env f).trace = (startLogger f).trace ++ .Println .starting ::
        (startStateKeeper env f).trace ++ (startPlain env f).trace ∧
      (Run env f).rooms = (startStateKeeper env f).rooms ∧
      (Run env f).exit = (startPlain env f).exit) ∨
    ((startLogger f).exit = none ∧ (startStateKeeper env f).exit = none ∧
      (startPlain env f).exit = none ∧ (startTLS env f).exit ≠ none ∧
      (Run env f).trace = (startLogger f).trace ++ .Println .starting ::
        (startStateKeeper env f).trace ++ (startPlain env f).trace ++
        (startTLS env f).trace ∧
      (Run env f).rooms = (startStateKeeper env f).rooms ∧
      (Run env f).exit = (startTLS env f).exit) ∨
    ((startLogger f).exit = none ∧ (startStateKeeper env f).exit = none ∧
      (startPlain env f).exit = none ∧ (startTLS env f).exit = none ∧
      (Run env f).trace = (startLogger f).trace ++ .Println .starting ::
        (startStateKeeper env f).trace ++ (startPlain env f).trace ++
        (startTLS env f).trace ++ (startServing f).trace ∧
      (Run env f).rooms = (startStateKeeper env f).rooms ∧
      (Run env f).exit = none) := by
  have hL := startLogger_rooms f
  have hP := startPlain_rooms env f
  have hT := startTLS_rooms env f
  cases h1 : (startLogger f).exit with
  | some e => left; simp [Run, Result.andThen, h1]
  | none =>
    right
    cases h2 : (startStateKeeper env f).exit with
    | some e => left; simp [Run, Result.andThen, h1, h2, steps, hL]
    | none =>
      right
      cases h3 : (startPlain env f).exit with
      | some e => left; simp [Run, Result.andThen, h1, h2, h3, steps, hL, hP]
      | none =>
        right
        cases h4 : (startTLS env f).exit with
        | some e => left; simp [Run, Result.andThen, h1, h2, h3, h4, steps, hL, hP, hT]
        | none =>
          right
          simp [Run, Result.andThen, h1, h2, h3, h4, steps, hL, hP, hT, startServing]

/-! ## The state loop -/

theorem loadState_exit_of_read (env : Env) (state buf : Str)
    (hread : env.ReadFile state = some buf) : (loadState env state).exit = none := by
  unfold loadState
  rw [hread]
  dsimp only
  split_ifs <;> rfl

theorem loadStates_rooms_mem (env : Env) (states : List Str) (state : Str)
    (hok : (loadStates env states).exit = none) (hmem : state ∈ states) :
    ∀ r ∈ (loadState env state).rooms, r ∈ (loadStates env states).rooms := by
  induction states with
  | nil => simp at hmem
  | cons s rest ih =>
    intro r hr
    simp only [loadStates, andThen_exit_eq_none] at hok
    simp only [loadStates, andThen_rooms, hok.1, if_true, List.mem_append]
    rcases List.mem_cons.mp hmem with e | e
    · subst e
      exact Or.inl hr
    · exact Or.inr (ih hok.2 e r hr)

theorem startStateKeeper_ok (env : Env) (f : Flags) (hd : f.statedir ≠ [])
    (h : (startStateKeeper env f).exit = none) :
    ∃ states, env.Glob f.statedir = some states ∧ (loadStates env states).exit = none ∧
      (startStateKeeper env f).trace = .Glob f.statedir :: (loadStates env states).trace ++
        [.go (.StateKeeper f.statedir .stateSink), .Println (.statekeeperStarted f.statedir)] ∧
      (startStateKeeper env f).rooms = (loadStates env states).rooms := by
  unfold startStateKeeper at h ⊢
  rw [if_neg hd] at h ⊢
  split_ifs at h ⊢ with habs
  · simp [fatal] at h
  · cases hg : env.Glob f.statedir with
    | none => simp [hg, steps, fatal, andThen_exit] at h
    | some states =>
      simp only [hg, andThen_exit, steps, if_true] at h
      have hls : (loadStates env states).exit = none := by
        by_contra hne
        simp [hne] at h
      exact ⟨states, rfl, hls, by simp [andThen_trace, andThen_exit, steps, hls],
        by simp [andThen_rooms, andThen_exit, steps, hls]⟩

theorem Run_ok (env : Env) (f : Flags) (h : (Run env f).exit = none) :
    (startLogger f).exit = none ∧ (startStateKeeper env f).exit = none ∧
    (startPlain env f).exit = none ∧ (startTLS env f).exit = none ∧
    (Run env f).trace = (startLogger f).trace ++ .Println .starting ::
      (startStateKeeper env f).trace ++ (startPlain env f).trace ++
      (startTLS env f).trace ++ (startServing f).trace ∧
    (Run env f).rooms = (startStateKeeper env f).rooms := by
  rcases Run_cases env f with c | c | c | c | c
  · rw [c.2] at h
    exact absurd h c.1
  · rw [c.2.2.2.2] at h
    exact absurd h c.2.1
  · rw [c.2.2.2.2.2] at h
    exact absurd h c.2.2.1
  · rw [c.2.2.2.2.2.2] at h
    exact absurd h c.2.2.2.1
  · exact ⟨c.1, c.2.1, c.2.2.1, c.2.2.2.1, c.2.2.2.2.1, c.2.2.2.2.2.1⟩

/-- C1: for every topic and key without a newline, a state file whose text is
the topic, a newline and the key, followed by nothing or by a newline and
anything, is split by `Run` so that line 1 is the topic and line 2 is the key,
and the room registered for the file is given exactly that topic and that key;
the room is among the rooms restored by a `Run` that reaches the coordinator. -/
theorem C1_state_record_sets_topic_and_key (env : Env) (state topic key rest : Str)
    (ht : NL ∉ topic) (hk : NL ∉ key) (hr : rest = [] ∨ ∃ more, rest = NL :: more)
    (hread : env.ReadFile state = some (topic ++ NL :: (key ++ rest))) :
    (Split (topic ++ NL :: (key ++ rest)))[0]? = some topic ∧
    (Split (topic ++ NL :: (key ++ rest)))[1]? = some key ∧
    (loadState env state).rooms =
      [{ env.RoomRegister (Base state) with topic := some topic, key := some key }] ∧
    Action.setTopic (Base state) topic ∈ (loadState env state).trace ∧
    Action.setKey (Base state) key ∈ (loadState env state).trace ∧
    ∀ (f : Flags) (states : List Str), f.statedir ≠ [] →
      env.Glob f.statedir = some states → state ∈ states → (Run env f).exit = none →
      { env.RoomRegister (Base state) with topic := some topic, key := some key } ∈
        (Run env f).rooms := by
  obtain ⟨others, hs⟩ := Split_record topic key rest ht hk hr
  have hl := loadState_of_record env state _ topic key others hread hs
  refine ⟨by simp [hs], by simp [hs], by rw [hl], by simp [hl], by simp [hl], ?_⟩
  intro f states hd hg hmem hok
  obtain ⟨_, hS, _, _, _, hrooms⟩ := Run_ok env f hok
  obtain ⟨states2, hg2, hls, _, hr2⟩ := startStateKeeper_ok env f hd hS
  rw [hg] at hg2
  cases hg2
  rw [hrooms, hr2]
  exact loadStates_rooms_mem env states state hls hmem _ (by simp [hl])

/-- C1 at the file `#go` of the example: text `"hello\nsecret\n"`, topic
`"hello"`, key `"secret"`. -/
theorem C1_state_record_sets_topic_and_key_witness :
    (loadState (exampleEnv true true true) (ascii "/var/lib/goircd/#go")).rooms =
      [⟨ascii "#go", some (ascii "hello"), some (ascii "secret")⟩] ∧
    (⟨ascii "#go", some (ascii "hello"), some (ascii "secret")⟩ : Room) ∈
      (Run (exampleEnv true true true) stateFlags).rooms :=
  have h := C1_state_record_sets_topic_and_key (exampleEnv true true true)
    (ascii "/var/lib/goircd/#go") (ascii "hello") (ascii "secret") [NL]
    (by decide) (by decide) (Or.inr ⟨[], rfl⟩) (by decide)
  ⟨h.2.2.1, h.2.2.2.2.2 stateFlags _ (by decide) rfl (by decide) (by decide)⟩

/-! ## C10 -/

/-- C10: a state file that can be read is reported as corrupted exactly when its
text holds no newline; for such a file (the empty file included) the loop body
registers the room under the base name of the file, leaves the room as
`RoomRegister` returned it, does not end the process, and the loop goes on with
the remaining files. -/
theorem C10_state_without_newline_is_skipped (env : Env) (state buf : Str)
    (rest : List Str) (hread : env.ReadFile state = some buf) :
    ((∃ name contents, Action.Println (.stateCorrupted name contents) ∈
        (loadState env state).trace) ↔ NL ∉ buf) ∧
    (NL ∉ buf →
      (loadState env state).trace =
        [.ReadFile state, .RoomRegister (Base state),
         .Println (.stateCorrupted (env.RoomRegister (Base state)).name [buf])] ∧
      (loadState env state).rooms = [env.RoomRegister (Base state)] ∧
      (loadState env state).exit = none ∧
      (loadStates env (state :: rest)).trace =
        (loadState env state).trace ++ (loadStates env rest).trace ∧
      (loadStates env (state :: rest)).rooms =
        env.RoomRegister (Base state) :: (loadStates env rest).rooms ∧
      (loadStates env (state :: rest)).exit = (loadStates env rest).exit) := by
  constructor
  · constructor
    · rintro ⟨name, contents, h⟩
      rw [← length_Split_lt_two_iff]
      by_contra hlen
      simp [loadState, hread, hlen] at h
    · intro hnl
      rw [loadState_of_corrupted env state buf hread hnl]
      exact ⟨(env.RoomRegister (Base state)).name, [buf], by simp⟩
  · intro hnl
    have hl := loadState_of_corrupted env state buf hread hnl
    refine ⟨by rw [hl], by rw [hl], by rw [hl], ?_, ?_, ?_⟩
    · simp [loadStates, andThen_trace, hl]
    · simp [loadStates, andThen_rooms, hl]
    · simp [loadStates, andThen_exit, hl]

/-- C10 at the empty file `#void` of the example, which is the last of the two
state files. -/
theorem C10_state_without_newline_is_skipped_witness :
    (loadState (exampleEnv true true true) (ascii "/var/lib/goircd/#void")).rooms =
      [⟨ascii "#void", none, none⟩] ∧
    (loadState (exampleEnv true true true) (ascii "/var/lib/goircd/#void")).exit = none :=
  have h := (C10_state_without_newline_is_skipped (exampleEnv true true true)
    (ascii "/var/lib/goircd/#void") [] [] (by decide)).2 (by decide)
  ⟨h.2.1, h.2.2.1⟩

/-! ## C2 -/

theorem isListener_false (a : Action) (h : a.isListener = false) :
    a.isAcceptLoop = false ∧ a.isPlainLoop = false ∧ a.isTLSLoop = false := by
  unfold Action.isListener at h
  unfold Action.isAcceptLoop Action.isPlainLoop Action.isTLSLoop
  split at h <;> simp_all

theorem isAcceptLoop_false (a : Action) (h : a.isAcceptLoop = false) :
    a.isPlainLoop = false ∧ a.isTLSLoop = false := by
  cases a with
  | go t =>
    cases t with
    | listenerLoop tls addr timeout ch => simp [Action.isAcceptLoop] at h
    | _ => simp [Action.isPlainLoop, Action.isTLSLoop]
  | _ => simp [Action.isPlainLoop, Action.isTLSLoop]

theorem startLogger_exit (f : Flags) (e : FatalError) (h : (startLogger f).exit = some e) :
    e = .logdirNotAbsolute := by
  unfold startLogger at h
  split_ifs at h <;> simp [steps, fatal] at h
  exact h.symm

theorem loadStates_exit (env : Env) (states : List Str) (e : FatalError)
    (h : (loadStates env states).exit = some e) : ∃ state, e = .cannotReadState state := by
  induction states with
  | nil => simp [loadStates, steps] at h
  | cons s rest ih =>
    simp only [loadStates, andThen_exit] at h
    split_ifs at h with h1
    · exact ih h
    · cases hread : env.ReadFile s with
      | none =>
        simp [loadState, hread, steps, fatal, andThen_exit] at h
        exact ⟨s, h.symm⟩
      | some buf => exact absurd (loadState_exit_of_read env s buf hread) h1

theorem startStateKeeper_exit (env : Env) (f : Flags) (e : FatalError)
    (h : (startStateKeeper env f).exit = some e) :
    e = .statedirNotAbsolute ∨ e = .cannotReadStatedir ∨ ∃ state, e = .cannotReadState state := by
  unfold startStateKeeper at h
  split_ifs at h
  · simp [steps] at h
  · simp [fatal] at h
    exact Or.inl h.symm
  · split at h
    · simp [steps, fatal, andThen_exit] at h
      exact Or.inr (Or.inl h.symm)
    · simp only [andThen_exit, steps, if_true] at h
      split_ifs at h
      exact Or.inr (Or.inr (loadStates_exit env _ e h))

theorem startStateKeeper_failed (env : Env) (f : Flags)
    (h : (startStateKeeper env f).exit ≠ none) :
    ∀ a ∈ (startStateKeeper env f).trace, a.isStateKeeper = false := by
  unfold startStateKeeper at h ⊢
  split_ifs at h ⊢
  · simp [steps] at h
  · simp [fatal, Action.isStateKeeper]
  · cases hg : env.Glob f.statedir with
    | none => simp [steps, fatal, andThen_trace, Action.isStateKeeper]
    | some states =>
      simp only [hg, andThen_exit, steps, if_true] at h
      have hls : ¬ (loadStates env states).exit = none := by
        intro hc
        simp [hc] at h
      intro a ha
      simp only [andThen_trace, andThen_exit, steps, if_true, hls, if_false,
        List.append_nil, List.mem_append, List.mem_singleton] at ha
      rcases ha with rfl | ha
      · rfl
      · exact (loadStates_actions env _ a ha).2.2.1

theorem startPlain_failed (env : Env) (f : Flags) (e : FatalError)
    (h : (startPlain env f).exit = some e) :
    e = .cannotListen f.bind ∧
    (startPlain env f).trace = [.Listen f.bind, .Fatal (.cannotListen f.bind)] := by
  unfold startPlain at h ⊢
  split_ifs at h ⊢ <;> simp [steps, fatal, andThen_exit, andThen_trace] at h ⊢
  exact h.symm

theorem startPlain_ok (env : Env) (f : Flags) (h : (startPlain env f).exit = none) :
    ((∃ a ∈ (startPlain env f).trace, a.isPlainLoop = true) ↔
      (f.bind ≠ [] ∧ f.tlsonly = false)) ∧
    ((f.bind ≠ [] ∧ f.tlsonly = false) →
      .go (.listenerLoop false f.bind (proxyTimeoutDuration f.proxyTimeout) .events) ∈
        (startPlain env f).trace) := by
  unfold startPlain at h ⊢
  split_ifs at h ⊢ with hc hl
  · simp [steps, Action.isPlainLoop, hc.1, hc.2]
  · simp [steps, fatal, andThen_exit] at h
  · simp [steps, hc]

theorem startTLS_failed (env : Env) (f : Flags) (e : FatalError)
    (h : (startTLS env f).exit = some e) :
    (e = .cannotLoadCertificate f.tlsPEM (tlsKeyPath f) ∨ e = .cannotListenTLS f.tlsBind) ∧
    ∀ a ∈ (startTLS env f).trace, a.isAcceptLoop = false := by
  unfold startTLS at h ⊢
  split_ifs at h ⊢ <;>
    simp [steps, fatal, andThen_exit, andThen_trace, Action.isAcceptLoop] at h ⊢
  · exact Or.inr h.symm
  · exact Or.inl h.symm

theorem startTLS_ok (env : Env) (f : Flags) (h : (startTLS env f).exit = none) :
    ((∃ a ∈ (startTLS env f).trace, a.isTLSLoop = true) ↔ f.tlsBind ≠ []) ∧
    (f.tlsBind ≠ [] →
      .go (.listenerLoop true f.tlsBind (proxyTimeoutDuration f.proxyTimeout) .events) ∈
        (startTLS env f).trace) := by
  unfold startTLS at h ⊢
  split_ifs at h ⊢ with hc hl
  · simp [steps, Action.isTLSLoop, hc]
  · simp [steps, fatal, andThen_exit] at h
  · simp [steps, fatal, andThen_exit] at h
  · simp [steps, hc]

/-! ## C7 -/

/-- C7: when `Run` reaches the coordinator, the accept loop of the plain
listener has been started if and only if `bind` is non-empty and `tlsonly` is
false, and then on `bind`; the accept loop of the TLS listener has been started
if and only if `tlsbind` is non-empty, and then on `tlsbind`; with `tlsonly` set
no plain accept loop has been started. -/
theorem C7_listener_selection (env : Env) (f : Flags) (hok : (Run env f).exit = none) :
    ((∃ a ∈ (Run env f).trace, a.isPlainLoop = true) ↔ (f.bind ≠ [] ∧ f.tlsonly = false)) ∧
    ((f.bind ≠ [] ∧ f.tlsonly = false) →
      .go (.listenerLoop false f.bind (proxyTimeoutDuration f.proxyTimeout) .events) ∈
        (Run env f).trace) ∧
    ((∃ a ∈ (Run env f).trace, a.isTLSLoop = true) ↔ f.tlsBind ≠ []) ∧
    (f.tlsBind ≠ [] →
      .go (.listenerLoop true f.tlsBind (proxyTimeoutDuration f.proxyTimeout) .events) ∈
        (Run env f).trace) ∧
    (f.tlsonly = true → ∀ a ∈ (Run env f).trace, a.isPlainLoop = false) := by
  obtain ⟨_, _, hP, hT, htrace, _⟩ := Run_ok env f hok
  have hp := startPlain_ok env f hP
  have ht := startTLS_ok env f hT
  have hmem : ∀ a, a ∈ (Run env f).trace ↔
      (a ∈ (startLogger f).trace ∨ a = .Println .starting ∨
       a ∈ (startStateKeeper env f).trace ∨ a ∈ (startPlain env f).trace ∨
       a ∈ (startTLS env f).trace ∨ a ∈ (startServing f).trace) := by
    intro a
    rw [htrace]
    simp only [List.mem_append, List.mem_cons, or_assoc]
  have plain_iff : (∃ a ∈ (Run env f).trace, a.isPlainLoop = true) ↔
      ∃ a ∈ (startPlain env f).trace, a.isPlainLoop = true := by
    constructor
    · rintro ⟨a, ha, hl⟩
      rcases (hmem a).mp ha with h | h | h | h | h | h
      · rw [(isListener_false a (startLogger_actions f a h).2.1).2.1] at hl
        cases hl
      · subst h
        cases hl
      · rw [(isListener_false a (startStateKeeper_actions env f a h).1).2.1] at hl
        cases hl
      · exact ⟨a, h, hl⟩
      · rw [(startTLS_actions env f a h).2.2.2.1] at hl
        cases hl
      · rw [(isListener_false a (startServing_actions f a h).2.2.2).2.1] at hl
        cases hl
    · rintro ⟨a, ha, hl⟩
      exact ⟨a, (hmem a).mpr (Or.inr (Or.inr (Or.inr (Or.inl ha)))), hl⟩
  have tls_iff : (∃ a ∈ (Run env f).trace, a.isTLSLoop = true) ↔
      ∃ a ∈ (startTLS env f).trace, a.isTLSLoop = true := by
    constructor
    · rintro ⟨a, ha, hl⟩
      rcases (hmem a).mp ha with h | h | h | h | h | h
      · rw [(isListener_false a (startLogger_actions f a h).2.1).2.2] at hl
        cases hl
      · subst h
        cases hl
      · rw [(isListener_false a (startStateKeeper_actions env f a h).1).2.2] at hl
        cases hl
      · rw [(startPlain_actions env f a h).2.2.2.1] at hl
        cases hl
      · exact ⟨a, h, hl⟩
      · rw [(isListener_false a (startServing_actions f a h).2.2.2).2.2] at hl
        cases hl
    · rintro ⟨a, ha, hl⟩
      exact ⟨a, (hmem a).mpr (Or.inr (Or.inr (Or.inr (Or.inr (Or.inl ha))))), hl⟩
  refine ⟨plain_iff.trans hp.1, ?_, tls_iff.trans ht.1, ?_, ?_⟩
  · intro hc
    exact (hmem _).mpr (Or.inr (Or.inr (Or.inr (Or.inl (hp.2 hc)))))
  · intro hc
    exact (hmem _).mpr (Or.inr (Or.inr (Or.inr (Or.inr (Or.inl (ht.2 hc))))))
  · intro htls a ha
    by_contra hne
    have hex : ∃ a ∈ (Run env f).trace, a.isPlainLoop = true :=
      ⟨a, ha, by simpa using hne⟩
    have := (plain_iff.trans hp.1).mp hex
    rw [htls] at this
    exact absurd this.2 (by decide)

/-- C7 at the default plain address with a TLS address added: both accept loops
are started. -/
theorem C7_listener_selection_witness :
    (Run (exampleEnv true true true) tlsFlags).exit = none ∧
    Action.go (.listenerLoop false tlsFlags.bind
        (proxyTimeoutDuration tlsFlags.proxyTimeout) .events) ∈
      (Run (exampleEnv true true true) tlsFlags).trace ∧
    Action.go (.listenerLoop true tlsFlags.tlsBind
        (proxyTimeoutDuration tlsFlags.proxyTimeout) .events) ∈
      (Run (exampleEnv true true true) tlsFlags).trace :=
  have h := C7_listener_selection (exampleEnv true true true) tlsFlags (by decide)
  ⟨by decide, h.2.1 (by decide), h.2.2.2.1 (by decide)⟩

/-! ## C3 -/

/-- C3, as stated, fails: with the default plain address, a TLS address and a
certificate that cannot be loaded, `Run` ends with the fatal certificate error
after it has started the accept loop of the plain listener. -/
theorem C3_counterexample_plain_loop_runs_before_certificate_error :
    (Run (exampleEnv true false true) tlsFlags).exit =
      some (.cannotLoadCertificate (ascii "/etc/goircd/cert.pem")
        (ascii "/etc/goircd/cert.pem")) ∧
    (Run (exampleEnv true false true) tlsFlags).trace.any Action.isAcceptLoop = true := by
  decide

/-- C3, amended: if `Run` ends because the plain address cannot be bound, no
accept loop has been started; if it ends because the certificate and key cannot
be loaded or the TLS address cannot be bound, the TLS accept loop has not been
started, and the plain accept loop has been started exactly when `bind` is
non-empty and `tlsonly` is false; in all these cases the coordinator has not
been called. -/
theorem C3_fatal_listener_error (env : Env) (f : Flags) (e : FatalError)
    (h : (Run env f).exit = some e) :
    (e.isPlainListen = true →
      ∀ a ∈ (Run env f).trace, a.isAcceptLoop = false ∧ a.isProcessor = false) ∧
    (e.isTLS = true →
      (∀ a ∈ (Run env f).trace, a.isTLSLoop = false ∧ a.isProcessor = false) ∧
      ((∃ a ∈ (Run env f).trace, a.isPlainLoop = true) ↔
        (f.bind ≠ [] ∧ f.tlsonly = false))) := by
  rcases Run_cases env f with c | c | c | c | c
  · rw [c.2] at h
    have := startLogger_exit f e h
    subst this
    exact ⟨fun hk => (by cases hk), fun hk => (by cases hk)⟩
  · rw [c.2.2.2.2] at h
    rcases startStateKeeper_exit env f e h with rfl | rfl | ⟨s, rfl⟩ <;>
      exact ⟨fun hk => (by cases hk), fun hk => (by cases hk)⟩
  · obtain ⟨_, _, _, htrace, _, hexit⟩ := c
    rw [hexit] at h
    obtain ⟨he, hPt⟩ := startPlain_failed env f e h
    subst he
    refine ⟨fun _ a ha => ?_, fun hk => (by cases hk)⟩
    rw [htrace, hPt] at ha
    simp only [List.mem_append, List.mem_cons, List.mem_singleton, List.not_mem_nil,
      or_false] at ha
    rcases ha with (ha | rfl | ha) | rfl | rfl
    · exact ⟨(isListener_false a (startLogger_actions f a ha).2.1).1,
        (startLogger_actions f a ha).2.2.2.1⟩
    · exact ⟨rfl, rfl⟩
    · exact ⟨(isListener_false a (startStateKeeper_actions env f a ha).1).1,
        (startStateKeeper_actions env f a ha).2.2.1⟩
    · exact ⟨rfl, rfl⟩
    · exact ⟨rfl, rfl⟩
  · obtain ⟨_, _, hP, _, htrace, _, hexit⟩ := c
    rw [hexit] at h
    obtain ⟨he, hTt⟩ := startTLS_failed env f e h
    have hmem : ∀ a, a ∈ (Run env f).trace ↔
        (a ∈ (startLogger f).trace ∨ a = .Println .starting ∨
         a ∈ (startStateKeeper env f).trace ∨ a ∈ (startPlain env f).trace ∨
         a ∈ (startTLS env f).trace) := by
      intro a
      rw [htrace]
      simp only [List.mem_append, List.mem_cons, or_assoc]
    have hkind : e.isPlainListen = false := by
      rcases he with rfl | rfl <;> rfl
    refine ⟨fun hk => (by rw [hkind] at hk; cases hk), fun _ => ⟨?_, ?_⟩⟩
    · intro a ha
      rcases (hmem a).mp ha with ha | rfl | ha | ha | ha
      · exact ⟨(isListener_false a (startLogger_actions f a ha).2.1).2.2,
          (startLogger_actions f a ha).2.2.2.1⟩
      · exact ⟨rfl, rfl⟩
      · exact ⟨(isListener_false a (startStateKeeper_actions env f a ha).1).2.2,
          (startStateKeeper_actions env f a ha).2.2.1⟩
      · exact ⟨(startPlain_actions env f a ha).2.2.2.1,
          (startPlain_actions env f a ha).2.2.2.2.1⟩
      · exact ⟨(isAcceptLoop_false a (hTt a ha)).2, (startTLS_actions env f a ha).2.2.2.2.1⟩
    · rw [← (startPlain_ok env f hP).1]
      constructor
      · rintro ⟨a, ha, hl⟩
        rcases (hmem a).mp ha with ha | rfl | ha | ha | ha
        · rw [(isListener_false a (startLogger_actions f a ha).2.1).2.1] at hl
          cases hl
        · cases hl
        · rw [(isListener_false a (startStateKeeper_actions env f a ha).1).2.1] at hl
          cases hl
        · exact ⟨a, ha, hl⟩
        · rw [(startTLS_actions env f a ha).2.2.2.1] at hl
          cases hl
      · rintro ⟨a, ha, hl⟩
        exact ⟨a, (hmem a).mpr (Or.inr (Or.inr (Or.inr (Or.inl ha)))), hl⟩
  · rw [c.2.2.2.2.2.2] at h
    cases h

/-- C3, amended, at the input of the counterexample: the TLS accept loop has not
been started and the coordinator has not been called. -/
theorem C3_fatal_listener_error_witness :
    (Run (exampleEnv true false true) tlsFlags).exit =
      some (.cannotLoadCertificate tlsFlags.tlsPEM (tlsKeyPath tlsFlags)) ∧
    ((∃ a ∈ (Run (exampleEnv true false true) tlsFlags).trace, a.isPlainLoop = true) ↔
      (tlsFlags.bind ≠ [] ∧ tlsFlags.tlsonly = false)) :=
  ⟨by decide,
   ((C3_fatal_listener_error (exampleEnv true false true) tlsFlags
      (.cannotLoadCertificate tlsFlags.tlsPEM (tlsKeyPath tlsFlags)) (by decide)).2 rfl).2⟩

/-! ## C4 -/

theorem loadStates_unreadable (env : Env) (states : List Str)
    (h : ∃ s ∈ states, env.ReadFile s = none) : (loadStates env states).exit ≠ none := by
  induction states with
  | nil => simp at h
  | cons s rest ih =>
    obtain ⟨x, hx, hread⟩ := h
    simp only [loadStates, andThen_exit]
    split_ifs with h1
    · rcases List.mem_cons.mp hx with e | e
      · subst e
        simp [loadState, hread, steps, fatal, andThen_exit] at h1
      · exact ih ⟨x, e, hread⟩
    · exact h1

theorem startStateKeeper_unreadable (env : Env) (f : Flags) (hd : f.statedir ≠ [])
    (habs : IsAbs f.statedir = true)
    (hbad : env.Glob f.statedir = none ∨
      ∃ states, env.Glob f.statedir = some states ∧ ∃ s ∈ states, env.ReadFile s = none) :
    ∃ e, (startStateKeeper env f).exit = some e ∧
      (e = .cannotReadStatedir ∨ ∃ state, e = .cannotReadState state) := by
  unfold startStateKeeper
  rw [if_neg hd]
  simp only [habs, Bool.not_true, Bool.false_eq_true, if_false]
  rcases hbad with hg | ⟨states, hg, hs⟩
  · simp [hg, steps, fatal, andThen_exit]
  · have hne := loadStates_unreadable env states hs
    cases hl : (loadStates env states).exit with
    | none => exact absurd hl hne
    | some e =>
      refine ⟨e, by simp [hg, steps, andThen_exit, hl], Or.inr (loadStates_exit env states e hl)⟩

/-- With a non-empty absolute state directory, if `filepath.Glob` returns an
error or one of the files it returns cannot be read, `Run` ends with a fatal
error, which is the error of the state directory or of a state file when the log
directory is accepted; it has started neither the state keeper nor an accept
loop, has opened no listening socket and has not called the coordinator. -/
theorem state_errors_are_fatal (env : Env) (f : Flags) (hd : f.statedir ≠ [])
    (habs : IsAbs f.statedir = true)
    (hbad : env.Glob f.statedir = none ∨
      ∃ states, env.Glob f.statedir = some states ∧ ∃ s ∈ states, env.ReadFile s = none) :
    (∃ e, (Run env f).exit = some e ∧
      ((startLogger f).exit = none →
        e = .cannotReadStatedir ∨ ∃ state, e = .cannotReadState state)) ∧
    ∀ a ∈ (Run env f).trace,
      a.isStateKeeper = false ∧ a.isListener = false ∧ a.isProcessor = false := by
  obtain ⟨e, he, hkind⟩ := startStateKeeper_unreadable env f hd habs hbad
  have hne : (startStateKeeper env f).exit ≠ none := by
    rw [he]
    exact Option.some_ne_none e
  rcases Run_cases env f with c | c | c | c | c
  · rw [c.2]
    constructor
    · cases hl : (startLogger f).exit with
      | none => exact absurd hl c.1
      | some e1 => exact ⟨e1, rfl, fun hc => (by cases hc)⟩
    · intro a ha
      have := startLogger_actions f a ha
      exact ⟨this.2.2.1, this.2.1, this.2.2.2.1⟩
  · obtain ⟨_, _, htrace, _, hexit⟩ := c
    refine ⟨⟨e, by rw [hexit, he], fun _ => hkind⟩, ?_⟩
    intro a ha
    rw [htrace] at ha
    rcases List.mem_append.mp ha with ha | ha
    · have := startLogger_actions f a ha
      exact ⟨this.2.2.1, this.2.1, this.2.2.2.1⟩
    · rcases List.mem_cons.mp ha with rfl | ha
      · exact ⟨rfl, rfl, rfl⟩
      · have := startStateKeeper_actions env f a ha
        exact ⟨startStateKeeper_failed env f hne a ha, this.1, this.2.2.1⟩
  · exact absurd c.2.1 hne
  · exact absurd c.2.1 hne
  · exact absurd c.2.1 hne

/-- The fatal cases at the example: a state directory whose name makes a
malformed pattern, and a second state file that cannot be read. -/
theorem state_errors_are_fatal_example :
    (Run badPatternEnv stateFlags).exit = some .cannotReadStatedir ∧
    (Run noStateEnv stateFlags).exit =
      some (.cannotReadState (ascii "/var/lib/goircd/#void")) ∧
    (∀ a ∈ (Run noStateEnv stateFlags).trace,
      a.isStateKeeper = false ∧ a.isListener = false ∧ a.isProcessor = false) :=
  ⟨by decide, by decide,
   (state_errors_are_fatal noStateEnv stateFlags (by decide) (by decide)
     (Or.inr ⟨_, rfl, ascii "/var/lib/goircd/#void", by decide, by decide⟩)).2⟩

/-- A state directory that cannot be listed is to `Run` a state directory
without state files: whatever the other flags, the state stretch consists of the
glob and the start of the state keeper. -/
theorem startStateKeeper_of_unreadable_dir (env : Env) (f : Flags) (hd : f.statedir ≠ [])
    (habs : IsAbs f.statedir = true) (hpat : env.BadPattern f.statedir = false)
    (hdir : env.ReadDir f.statedir = none) :
    startStateKeeper env f =
      steps [.Glob f.statedir, .go (.StateKeeper f.statedir .stateSink),
             .Println (.statekeeperStarted f.statedir)] := by
  have hg : env.Glob f.statedir = some [] := by simp [Env.Glob, hpat, hdir]
  unfold startStateKeeper
  rw [if_neg hd]
  simp [habs, hg, loadStates, steps, Result.andThen]

/-- C4: at the non-empty absolute state directory `/var/lib/goircd`, when the
directory cannot be listed, `filepath.Glob` gives no error and no match, and
`Run` does not end with a fatal error: it restores no room, starts the state
keeper, opens the plain listening socket, starts its accept loop and calls the
coordinator. -/
theorem C4_unreadable_statedir_is_not_fatal :
    stateFlags.statedir ≠ [] ∧ IsAbs stateFlags.statedir = true ∧
    unreadableDirEnv.ReadDir stateFlags.statedir = none ∧
    unreadableDirEnv.Glob stateFlags.statedir = some [] ∧
    (Run unreadableDirEnv stateFlags).exit = none ∧
    (Run unreadableDirEnv stateFlags).rooms = [] ∧
    (Run unreadableDirEnv stateFlags).trace =
      [.go (.dummy .logSink), .Println .starting,
       .Glob (ascii "/var/lib/goircd"),
       .go (.StateKeeper (ascii "/var/lib/goircd") .stateSink),
       .Println (.statekeeperStarted (ascii "/var/lib/goircd")),
       .Listen (ascii ":6667"), .Println (.rawListening (ascii ":6667")),
       .go (.listenerLoop false (ascii ":6667") 5000000000 .events),
       .Processor .events] := by
  decide

/-! ## C5 -/

theorem Run_trace_mem (env : Env) (f : Flags) (a : Action) (h : a ∈ (Run env f).trace) :
    a ∈ (startLogger f).trace ∨ a = .Println .starting ∨
    a ∈ (startStateKeeper env f).trace ∨ a ∈ (startPlain env f).trace ∨
    a ∈ (startTLS env f).trace ∨ a ∈ (startServing f).trace := by
  rcases Run_cases env f with c | c | c | c | c
  · rw [c.2] at h
    exact Or.inl h
  · rw [c.2.2.1] at h
    simp only [List.mem_append, List.mem_cons] at h
    tauto
  · rw [c.2.2.2.1] at h
    simp only [List.mem_append, List.mem_cons] at h
    tauto
  · rw [c.2.2.2.2.1] at h
    simp only [List.mem_append, List.mem_cons] at h
    tauto
  · rw [c.2.2.2.2.1] at h
    simp only [List.mem_append, List.mem_cons] at h
    tauto

theorem startLogger_serving (f : Flags) : serving (startLogger f).trace = [] := by
  unfold startLogger
  split_ifs <;> simp [steps, fatal, serving, Action.isServing]

theorem loadStates_serving (env : Env) (states : List Str) :
    ∀ a ∈ (loadStates env states).trace, a.isServing = false := by
  induction states with
  | nil => simp [loadStates, steps]
  | cons state rest ih =>
    refine andThen_forall _ _ _ ?_ ih
    unfold loadState
    split
    · simp [steps, fatal, andThen_trace, Action.isServing]
    · dsimp only
      split_ifs <;> simp [Action.isServing]

theorem startStateKeeper_serving (env : Env) (f : Flags) :
    serving (startStateKeeper env f).trace = [] := by
  unfold serving
  rw [List.filter_eq_nil_iff]
  suffices h : ∀ a ∈ (startStateKeeper env f).trace, a.isServing = false by
    intro a ha
    simp [h a ha]
  unfold startStateKeeper
  split_ifs
  · simp [steps, Action.isServing]
  · simp [fatal, Action.isServing]
  · split
    · simp [steps, fatal, andThen_trace, Action.isServing]
    · refine andThen_forall _ _ _ (andThen_forall _ _ _ ?_ (loadStates_serving env _)) ?_
      · simp [steps, Action.isServing]
      · simp [steps, Action.isServing]

theorem filter_isProcessor_eq_nil (t : List Action) (h : ∀ a ∈ t, a.isProcessor = false) :
    t.filter Action.isProcessor = [] := by
  rw [List.filter_eq_nil_iff]
  intro a ha
  simp [h a ha]

theorem Run_ok_serving (env : Env) (f : Flags) (hok : (Run env f).exit = none) :
    serving (Run env f).trace =
      serving ((startPlain env f).trace ++ (startTLS env f).trace ++ (startServing f).trace) ∧
    (Run env f).trace.filter Action.isProcessor = [.Processor .events] := by
  obtain ⟨_, _, _, _, htrace, _⟩ := Run_ok env f hok
  have h1 := startLogger_serving f
  have h2 := startStateKeeper_serving env f
  have hL := filter_isProcessor_eq_nil _ (fun a h => (startLogger_actions f a h).2.2.2.1)
  have hS := filter_isProcessor_eq_nil _ (fun a h => (startStateKeeper_actions env f a h).2.2.1)
  have hP := filter_isProcessor_eq_nil _ (fun a h => (startPlain_actions env f a h).2.2.2.2.1)
  have hT := filter_isProcessor_eq_nil _ (fun a h => (startTLS_actions env f a h).2.2.2.2.1)
  have hV : (startServing f).trace.filter Action.isProcessor = [.Processor .events] := by
    unfold startServing
    split_ifs <;> simp [steps, List.filter, Action.isProcessor]
  constructor
  · unfold serving at h1 h2 ⊢
    rw [htrace]
    simp [List.filter_append, List.filter_cons, h1, h2, Action.isServing]
  · rw [htrace]
    simp [List.filter_append, List.filter_cons, hL, hS, hP, hT, hV, Action.isProcessor]

theorem dummy_eq {Item : Type} (items : List Item) : dummy items = (items.length, []) := by
  induction items with
  | nil => rfl
  | cons x rest ih => simp [dummy, ih]

/-- C5: with an empty `logdir` the first thing `Run` starts is the dummy consumer
of `logSink` and it never starts `Logger`; with an empty `statedir` the state
stretch of `Run` is the start of the dummy consumer of `stateSink`, which is in
the trace whenever the log directory is accepted, and `Run` never starts
`StateKeeper` and registers no room; a dummy consumer receives every item and
does nothing with it; and for two settings of the directories with which `Run`
reaches the coordinator, the certificates loaded, the sockets opened, the accept
loops started and the one call of the coordinator are the same. -/
theorem C5_dummy_sinks {Item : Type} (env : Env) (f : Flags) :
    (f.logdir = [] →
      startLogger f = steps [.go (.dummy .logSink)] ∧
      (Run env f).trace.head? = some (.go (.dummy .logSink)) ∧
      ∀ a ∈ (Run env f).trace, a.isLogger = false) ∧
    (f.statedir = [] →
      startStateKeeper env f = steps [.go (.dummy .stateSink)] ∧
      ((f.logdir = [] ∨ IsAbs f.logdir = true) →
        .go (.dummy .stateSink) ∈ (Run env f).trace) ∧
      (∀ a ∈ (Run env f).trace, a.isStateKeeper = false ∧ a.isRoom = false) ∧
      (Run env f).rooms = []) ∧
    (∀ items : List Item, dummy items = (items.length, [])) ∧
    (∀ logdir statedir : Str, (Run env f).exit = none →
      (Run env { f with logdir := logdir, statedir := statedir }).exit = none →
      serving (Run env f).trace =
        serving (Run env { f with logdir := logdir, statedir := statedir }).trace ∧
      (Run env f).trace.filter Action.isProcessor = [.Processor .events] ∧
      (Run env { f with logdir := logdir, statedir := statedir }).trace.filter
        Action.isProcessor = [.Processor .events]) := by
  refine ⟨?_, ?_, dummy_eq, ?_⟩
  · intro hl
    have hL : startLogger f = steps [.go (.dummy .logSink)] := by simp [startLogger, hl]
    refine ⟨hL, ?_, ?_⟩
    · simp [Run, andThen_trace, hL, steps]
    · intro a ha
      rcases Run_trace_mem env f a ha with h | rfl | h | h | h | h
      · rw [hL] at h
        simp [steps] at h
        subst h
        rfl
      · rfl
      · exact (startStateKeeper_actions env f a h).2.1
      · exact (startPlain_actions env f a h).2.1
      · exact (startTLS_actions env f a h).2.1
      · exact (startServing_actions f a h).2.1
  · intro hs
    have hS : startStateKeeper env f = steps [.go (.dummy .stateSink)] := by
      simp [startStateKeeper, hs]
    refine ⟨hS, ?_, ?_, ?_⟩
    · intro hl
      have hLe : (startLogger f).exit = none := by
        unfold startLogger
        rcases hl with hl | hl
        · simp [hl, steps]
        · split_ifs <;> simp_all [steps]
      simp [Run, andThen_trace, andThen_exit, hLe, hS, steps]
    · intro a ha
      rcases Run_trace_mem env f a ha with h | rfl | h | h | h | h
      · exact ⟨(startLogger_actions f a h).2.2.1, (startLogger_actions f a h).1⟩
      · exact ⟨rfl, rfl⟩
      · rw [hS] at h
        simp [steps] at h
        subst h
        exact ⟨rfl, rfl⟩
      · exact ⟨(startPlain_actions env f a h).2.2.1, (startPlain_actions env f a h).1⟩
      · exact ⟨(startTLS_actions env f a h).2.2.1, (startTLS_actions env f a h).1⟩
      · exact ⟨(startServing_actions f a h).2.2.1, (startServing_actions f a h).1⟩
    · rcases Run_cases env f with c | c | c | c | c
      · rw [c.2]
        exact startLogger_rooms f
      · rw [c.2.2.2.1, hS]
        rfl
      · rw [c.2.2.2.2.1, hS]
        rfl
      · rw [c.2.2.2.2.2.1, hS]
        rfl
      · rw [c.2.2.2.2.2.1, hS]
        rfl
  · intro logdir statedir hok hok2
    have h1 := Run_ok_serving env f hok
    have h2 := Run_ok_serving env _ hok2
    refine ⟨?_, h1.2, h2.2⟩
    rw [h1.1, h2.1]
    rfl

/-- C5 at the default flags, where both directories are empty. -/
theorem C5_dummy_sinks_witness :
    (Run (exampleEnv true true true) { }).trace.head? = some (.go (.dummy .logSink)) ∧
    Action.go (.dummy .stateSink) ∈ (Run (exampleEnv true true true) { }).trace ∧
    (Run (exampleEnv true true true) { }).rooms = [] ∧
    serving (Run (exampleEnv true true true) { }).trace =
      serving (Run (exampleEnv true true true)
        { ({ } : Flags) with logdir := ascii "/var/log/goircd",
                             statedir := ascii "/var/lib/goircd" }).trace :=
  have h := @C5_dummy_sinks Unit (exampleEnv true true true) { }
  ⟨(h.1 rfl).2.1, (h.2.1 rfl).2.1 (Or.inl rfl), (h.2.1 rfl).2.2.2,
   (h.2.2.2 (ascii "/var/log/goircd") (ascii "/var/lib/goircd") (by decide) (by decide)).1⟩

/-! ## C6 -/

/-- C6, as stated, fails: with `-proxytimeout 9223372037` the product with
`time.Second` leaves the range of `int64`, and both listeners are handed a
negative `ProxyHeaderTimeout`, which is not 9223372037 seconds. -/
theorem C6_counterexample_timeout_overflows :
    longTimeoutFlags.proxyTimeout < 2 ^ 64 ∧
    (Run (exampleEnv true true true) longTimeoutFlags).trace.filterMap
      Action.proxyHeaderTimeout = [-9223372036709551616, -9223372036709551616] ∧
    proxyTimeoutDuration longTimeoutFlags.proxyTimeout ≠
      (longTimeoutFlags.proxyTimeout : Int) * 1000000000 := by
  decide

theorem proxyTimeoutDuration_of_small (n : Nat) (h : n * 1000000000 < 2 ^ 63) :
    proxyTimeoutDuration n = (n : Int) * 1000000000 := by
  unfold proxyTimeoutDuration int64 uint Second
  have h1 : n % 2 ^ 64 = n := Nat.mod_eq_of_lt (by omega)
  rw [h1]
  have h2 : ((n : Int) + 2 ^ 63) % 2 ^ 64 = (n : Int) + 2 ^ 63 :=
    Int.emod_eq_of_lt (by omega) (by omega)
  rw [h2]
  have h3 : ((n : Int) + 2 ^ 63 - 2 ^ 63) = n := by omega
  rw [h3]
  have h4 : ((n : Int) * 1000000000 + 2 ^ 63) % 2 ^ 64 = (n : Int) * 1000000000 + 2 ^ 63 :=
    Int.emod_eq_of_lt (by omega) (by omega)
  rw [h4]
  omega

/-- C6, amended: every accept loop `Run` starts, plain or TLS, is handed the
same `ProxyHeaderTimeout`, computed from the `proxytimeout` flag `n`; whenever
`n * 10^9` is below `2^63` (that is, `n` is at most 9223372036) it is exactly
`n * 10^9` nanoseconds, which is `n` seconds and not negative; for the default
`n = 5` it is 5000000000 nanoseconds. -/
theorem C6_proxy_timeout (env : Env) (f : Flags) :
    (∀ (tls : Bool) (addr : Str) (timeout : Int) (ch : Chan),
      .go (.listenerLoop tls addr timeout ch) ∈ (Run env f).trace →
      timeout = proxyTimeoutDuration f.proxyTimeout) ∧
    (f.proxyTimeout * 1000000000 < 2 ^ 63 →
      proxyTimeoutDuration f.proxyTimeout = (f.proxyTimeout : Int) * Second ∧
      0 ≤ proxyTimeoutDuration f.proxyTimeout) ∧
    proxyTimeoutDuration PROXY_TIMEOUT = 5000000000 := by
  refine ⟨?_, ?_, by decide⟩
  · intro tls addr timeout ch ha
    rcases Run_trace_mem env f _ ha with h | h | h | h | h | h
    · have := (startLogger_actions f _ h).2.1
      simp [Action.isListener] at this
    · cases h
    · have := (startStateKeeper_actions env f _ h).1
      simp [Action.isListener] at this
    · unfold startPlain at h
      split_ifs at h <;> simp [steps, fatal, andThen_trace] at h
      exact h.2.2.1
    · unfold startTLS at h
      split_ifs at h <;> simp [steps, fatal, andThen_trace] at h
      exact h.2.2.1
    · have := (startServing_actions f _ h).2.2.2
      simp [Action.isListener] at this
  · intro hsmall
    have := proxyTimeoutDuration_of_small f.proxyTimeout hsmall
    rw [this]
    exact ⟨rfl, by omega⟩

/-- C6, amended, at the largest value of the flag whose product with
`time.Second` stays in the range of `int64`. -/
theorem C6_proxy_timeout_witness :
    (9223372036 : Nat) * 1000000000 < 2 ^ 63 ∧
    proxyTimeoutDuration ({ proxyTimeout := 9223372036 } : Flags).proxyTimeout =
      ((({ proxyTimeout := 9223372036 } : Flags).proxyTimeout : Nat) : Int) * Second :=
  ⟨by decide,
   ((C6_proxy_timeout (exampleEnv true true true) { proxyTimeout := 9223372036 }).2.1
      (by decide)).1⟩

/-! ## C8 -/

/-- C8: with `-healthcheck -healthbind 127.0.0.1:9000` the health endpoint is
started, and the address `health_endpoint` hands to `http.ListenAndServe` is
`"0.0.0.0:8086"`, not the value of the `healthbind` flag. -/
theorem C8_health_endpoint_ignores_healthbind :
    Action.go .health_endpoint ∈ (Run (exampleEnv true true true) healthFlags).trace ∧
    healthListenAddr healthFlags = [ascii "0.0.0.0:8086"] ∧
    healthListenAddr healthFlags ≠ [healthFlags.healtbind] := by
  decide

/-- With the `healthcheck` flag off, `Run` does not start the health endpoint;
and `health_endpoint` listens on `"0.0.0.0:8086"` whatever the flags. -/
theorem health_endpoint_facts (env : Env) (f : Flags) :
    (f.healtcheck = false → ∀ a ∈ (Run env f).trace, a.isHealth = false) ∧
    healthListenAddr f = [ascii "0.0.0.0:8086"] := by
  refine ⟨?_, rfl⟩
  intro hh a ha
  rcases Run_trace_mem env f a ha with h | rfl | h | h | h | h
  · exact (startLogger_actions f a h).2.2.2.2
  · rfl
  · exact (startStateKeeper_actions env f a h).2.2.2
  · exact (startPlain_actions env f a h).2.2.2.2.2
  · exact (startTLS_actions env f a h).2.2.2.2.2
  · have h2 : a = .go .prom_export ∨ a = .Processor .events := by
      unfold startServing at h
      simp only [hh, steps] at h
      split_ifs at h <;> simp at h <;> tauto
    rcases h2 with rfl | rfl <;> rfl

/-! ## C9 -/

theorem listenerLoop_spec {Conn Client : Type} (NewClient : Conn → Client) (events : Chan)
    (results : List (Option Conn)) :
    ∀ st : LoopState Client,
      (listenerLoop NewClient events results st).clients =
        st.clients ++ (results.filterMap id).map NewClient ∧
      (listenerLoop NewClient events results st).started =
        st.started ++ (results.filterMap id).map (fun conn => (NewClient conn, events)) ∧
      (listenerLoop NewClient events results st).clients_tls_total =
        st.clients_tls_total + (results.filterMap id).length ∧
      (listenerLoop NewClient events results st).accepts = st.accepts + results.length ∧
      (listenerLoop NewClient events results st).logged =
        st.logged + (results.length - (results.filterMap id).length) := by
  induction results with
  | nil => intro st; simp [listenerLoop]
  | cons r rest ih =>
    intro st
    have hlen : (rest.filterMap id).length ≤ rest.length := List.length_filterMap_le _ _
    have := ih (listenerLoopBody NewClient events st r)
    unfold listenerLoop at this ⊢
    rw [List.foldl_cons]
    cases r with
    | none =>
      simp only [listenerLoopBody] at this ⊢
      simp only [this, List.filterMap_cons, id, List.length_cons]
      refine ⟨trivial, trivial, trivial, by omega, by omega⟩
    | some conn =>
      simp only [listenerLoopBody] at this ⊢
      simp only [this, List.filterMap_cons, id, List.length_cons, List.map_cons,
        List.append_assoc, List.singleton_append]
      refine ⟨trivial, trivial, by omega, by omega, by omega⟩

/-- C9: after any finite sequence of results of `sock.Accept()`, the sessions
made and the session tasks started by `listenerLoop` are one per successful
accept, in accept order, each task on the session of its connection and on the
event channel given to the loop; the counter has gone up by the number of
successful accepts; a failed accept makes no session, starts no task and leaves
the counter as it is; and the loop has gone through every result, failed ones
included. -/
theorem C9_listenerLoop_one_session_per_accept {Conn Client : Type}
    (NewClient : Conn → Client) (events : Chan) (results : List (Option Conn))
    (st : LoopState Client) :
    (listenerLoop NewClient events results st).clients =
      st.clients ++ (results.filterMap id).map NewClient ∧
    (listenerLoop NewClient events results st).started =
      st.started ++ (results.filterMap id).map (fun conn => (NewClient conn, events)) ∧
    (listenerLoop NewClient events results st).clients_tls_total =
      st.clients_tls_total + (results.filterMap id).length ∧
    (listenerLoop NewClient events results st).accepts = st.accepts + results.length ∧
    (listenerLoopBody NewClient events st none).clients = st.clients ∧
    (listenerLoopBody NewClient events st none).started = st.started ∧
    (listenerLoopBody NewClient events st none).clients_tls_total = st.clients_tls_total ∧
    (∀ more : List (Option Conn),
      listenerLoop NewClient events (none :: more) st =
        listenerLoop NewClient events more (listenerLoopBody NewClient events st none)) := by
  have h := listenerLoop_spec NewClient events results st
  exact ⟨h.1, h.2.1, h.2.2.1, h.2.2.2.1, rfl, rfl, rfl, fun _ => rfl⟩

end Goircd
